import Mathlib

/-!
Shallow embedding of `tortoise/transactions.py` (module-level transaction
routing for named connections) together with proofs about its behaviour.

Python data is modelled as follows:
* a `dict` is an insertion-ordered association list `List (α × β)`;
* `collections.defaultdict(lambda: deque())` subscripting is the explicit
  state transformer `dd_getitem` (it inserts a fresh empty stack on a miss);
* a `deque` used as a stack (`append` / `pop` / `[-1]` on the right end) is a
  `List` whose last element is the top of the stack;
* exceptions are an explicit `Except` verdict returned next to the post-state,
  because the Python globals survive a raised exception;
* `id(asyncio.current_task())` is an opaque `Nat` task identity and `str` of
  it is `Nat.repr`;
* `ParamsError` is modelled carrying the interpolated payload of its message,
  namely `list(Tortoise._connections.keys())`.
-/

namespace Tortoise

/-- A database client object (`BaseDBAsyncClient`); opaque, identified by id. -/
structure DBClient where
  id : Nat
deriving DecidableEq, Repr

/-- Exceptions that the embedded code can raise. -/
inductive PyError where
  /-- `ParamsError`, raised by `get_connection`; the payload models the
  interpolated `list(Tortoise._connections.keys())` of its message. -/
  | paramsError (registeredNames : List String)
  /-- `KeyError` from indexing a plain dict with an absent key. -/
  | keyError (key : String)
  /-- `IndexError` from `deque.pop()` on an empty deque. -/
  | indexError
  /-- an arbitrary exception raised by user code inside a scope. -/
  | userError (code : Nat)
deriving DecidableEq, Repr

/-- Python `dict` lookup `d.get(k)` : first binding for the key, if any. -/
def Dict.lookup {α β : Type} [DecidableEq α] : List (α × β) → α → Option β
  | [], _ => none
  | (k, v) :: rest, a => if k = a then some v else Dict.lookup rest a

/-- Python `k in d`. -/
def Dict.member {α β : Type} [DecidableEq α] (m : List (α × β)) (a : α) : Bool :=
  (Dict.lookup m a).isSome

/-- Python `d[k] = v` (replace in place, else append preserving order). -/
def Dict.set {α β : Type} [DecidableEq α] : List (α × β) → α → β → List (α × β)
  | [], a, b => [(a, b)]
  | (k, v) :: rest, a, b =>
    if k = a then (a, b) :: rest else (k, v) :: Dict.set rest a b

/-- Python `d.pop(k)`'s effect on the mapping: drop the binding for the key. -/
def Dict.erase {α β : Type} [DecidableEq α] : List (α × β) → α → List (α × β)
  | [], _ => []
  | (k, v) :: rest, a => if k = a then rest else (k, v) :: Dict.erase rest a

/-- Python `d.keys()` in insertion order. -/
def Dict.keys {α β : Type} (m : List (α × β)) : List α :=
  m.map Prod.fst

/-- The type of `current_transaction_map`: key (a string) to transaction
stack (last element = top). -/
abbrev TxMap := List (String × List DBClient)

/-- `current_transaction_map[key]` where the map is
`collections.defaultdict(lambda: collections.deque())`: on a miss a fresh
empty deque is inserted and returned. -/
def dd_getitem (m : TxMap) (k : String) : List DBClient × TxMap :=
  match Dict.lookup m k with
  | some v => (v, m)
  | none => ([], m ++ [(k, [])])

/-- The ambient interpreter state read and written by `transactions.py`:
`Tortoise._connections`, `current_transaction_map`,
`asyncio.get_event_loop().is_running()` and `id(asyncio.current_task())`. -/
structure PyState where
  connections : List (String × DBClient)
  transactionMap : TxMap
  loopRunning : Bool
  currentTask : Nat
deriving DecidableEq, Repr

/-- Python truthiness of the `Optional[str]` argument: `not connection_name`
is true for `None` and for the empty string. -/
def nameFalsy : Option String → Bool
  | none => true
  | some s => s == ""

/-- The connection name after the inference step of `get_connection`
(`connection_name = list(Tortoise._connections.keys())[0]` when falsy). -/
def resolved_name (connection_name : Option String) (st : PyState) : String :=
  if nameFalsy connection_name then (Dict.keys st.connections).headD ""
  else connection_name.getD ""

/-- The execution-context key `connection_name + str(id(asyncio.current_task()))`. -/
def mkKey (connection_name : String) (task : Nat) : String :=
  connection_name ++ Nat.repr task

/-- `get_connection(connection_name)` from `transactions.py`, returning its
verdict together with the post-state. -/
def get_connection (connection_name : Option String) (st : PyState) :
    Except PyError DBClient × PyState :=
  if nameFalsy connection_name && (st.connections.length != 1) then
    (.error (.paramsError (Dict.keys st.connections)), st)
  else
    let name := resolved_name connection_name st
    if !st.loopRunning then
      (match Dict.lookup st.connections name with
        | some c => .ok c
        | none => .error (.keyError name), st)
    else
      let key := mkKey name st.currentTask
      if Dict.member st.transactionMap key then
        let p := dd_getitem st.transactionMap key
        if !p.1.isEmpty then
          let q := dd_getitem p.2 key
          (match q.1.getLast? with
            | some h => .ok h
            | none => .error .indexError,
           { st with transactionMap := q.2 })
        else
          (match Dict.lookup st.connections name with
            | some c => .ok c
            | none => .error (.keyError name),
           { st with transactionMap := p.2 })
      else
        (match Dict.lookup st.connections name with
          | some c => .ok c
          | none => .error (.keyError name), st)

/-- `push_transaction(connection_name, connection)`:
`current_transaction_map[key].append(connection)`. -/
def push_transaction (connection_name : String) (connection : DBClient)
    (st : PyState) : PyState :=
  let key := mkKey connection_name st.currentTask
  let p := dd_getitem st.transactionMap key
  { st with transactionMap := Dict.set p.2 key (p.1 ++ [connection]) }

/-- `pop_transaction(connection_name)`: `current_transaction_map[key].pop()`,
then delete the key when its deque became empty.  A pop on an empty deque
raises `IndexError` after the defaultdict has already inserted the fresh
empty deque. -/
def pop_transaction (connection_name : String) (st : PyState) :
    Except PyError Unit × PyState :=
  let key := mkKey connection_name st.currentTask
  let p := dd_getitem st.transactionMap key
  if p.1.isEmpty then
    (.error .indexError, { st with transactionMap := p.2 })
  else
    let m2 := Dict.set p.2 key p.1.dropLast
    let q := dd_getitem m2 key
    if q.1.isEmpty then
      (.ok (), { st with transactionMap := Dict.erase q.2 key })
    else
      (.ok (), { st with transactionMap := q.2 })

/-- The stack currently stored for a key (absent keys read as empty). -/
def stackOf (st : PyState) (key : String) : List DBClient :=
  (Dict.lookup st.transactionMap key).getD []

/-- Iterated `push_transaction` of a list of handles, first to last. -/
def push_many (connection_name : String) (hs : List DBClient) (st : PyState) :
    PyState :=
  hs.foldl (fun s h => push_transaction connection_name h s) st

/-- Iterated `pop_transaction`, stopping at the first error. -/
def pop_many (connection_name : String) : Nat → PyState →
    Except PyError Unit × PyState
  | 0, st => (.ok (), st)
  | n + 1, st =>
    match pop_transaction connection_name st with
    | (.ok _, st1) => pop_many connection_name n st1
    | (.error e, st1) => (.error e, st1)

/-- Modelled from the spec: `connection._in_transaction()` and the
`TransactionContext` it returns live in `tortoise/backends/base/client.py`,
which is not part of this source tree.  Following spec §4.2, scope entry
resolves the connection via `get_connection` and pushes the handle obtained
from `begin` (`begin_tx`), the unit of work runs inside, and on every exit
path the scope commits (normal) or rolls back (abnormal) — neither touches
the registry — then unconditionally pops, re-raising the unit's verdict
unchanged.  The unit of work may read the interpreter state but, per spec §2,
only scopes write the stack registry. -/
def transaction_scope {A : Type} (connection_name : Option String)
    (begin_tx : DBClient → DBClient) (fn : PyState → Except PyError A)
    (st : PyState) : Except PyError A × PyState :=
  match get_connection connection_name st with
  | (.error e, st1) => (.error e, st1)
  | (.ok conn, st1) =>
    let name := resolved_name connection_name st1
    let st2 := push_transaction name (begin_tx conn) st1
    let r := fn st2
    match pop_transaction name st2 with
    | (.ok _, st3) => (r, st3)
    | (.error e, st3) => (.error e, st3)

/-- `atomic(connection_name)` applied to a unit of work: run it inside one
`transaction_scope` (`async with in_transaction(connection_name)`), returning
its result or re-raising its failure. -/
def atomic {A : Type} (connection_name : Option String)
    (begin_tx : DBClient → DBClient) (func : PyState → Except PyError A)
    (st : PyState) : Except PyError A × PyState :=
  transaction_scope connection_name begin_tx func st

/-! ### Association-list (`dict`) lemmas -/

theorem Dict.lookup_set_self {α β : Type} [DecidableEq α] (m : List (α × β))
    (k : α) (v : β) : Dict.lookup (Dict.set m k v) k = some v := by
  induction m with
  | nil => simp [Dict.set, Dict.lookup]
  | cons p rest ih =>
    obtain ⟨a, b⟩ := p
    by_cases h : a = k <;> simp [Dict.set, Dict.lookup, h, ih]

theorem Dict.set_lookup_self {α β : Type} [DecidableEq α] {m : List (α × β)}
    {k : α} {v : β} (h : Dict.lookup m k = some v) : Dict.set m k v = m := by
  induction m with
  | nil => simp [Dict.lookup] at h
  | cons p rest ih =>
    obtain ⟨a, b⟩ := p
    by_cases hk : a = k
    · subst hk
      simp [Dict.lookup] at h
      simp [Dict.set, h]
    · simp [Dict.lookup, hk] at h
      simp [Dict.set, hk, ih h]

theorem Dict.set_set {α β : Type} [DecidableEq α] (m : List (α × β)) (k : α)
    (v w : β) : Dict.set (Dict.set m k v) k w = Dict.set m k w := by
  induction m with
  | nil => simp [Dict.set]
  | cons p rest ih =>
    obtain ⟨a, b⟩ := p
    by_cases h : a = k <;> simp [Dict.set, h, ih]

theorem Dict.erase_set {α β : Type} [DecidableEq α] (m : List (α × β)) (k : α)
    (v : β) : Dict.erase (Dict.set m k v) k = Dict.erase m k := by
  induction m with
  | nil => simp [Dict.set, Dict.erase]
  | cons p rest ih =>
    obtain ⟨a, b⟩ := p
    by_cases h : a = k <;> simp [Dict.set, Dict.erase, h, ih]

theorem Dict.lookup_append_absent {α β : Type} [DecidableEq α]
    {m : List (α × β)} {k : α} (h : Dict.lookup m k = none) (v : β) :
    Dict.lookup (m ++ [(k, v)]) k = some v := by
  induction m with
  | nil => simp [Dict.lookup]
  | cons p rest ih =>
    obtain ⟨a, b⟩ := p
    by_cases hk : a = k
    · simp [Dict.lookup, hk] at h
    · simp [Dict.lookup, hk] at h ⊢
      exact ih h

theorem Dict.set_append_absent {α β : Type} [DecidableEq α]
    {m : List (α × β)} {k : α} (h : Dict.lookup m k = none) (v w : β) :
    Dict.set (m ++ [(k, v)]) k w = m ++ [(k, w)] := by
  induction m with
  | nil => simp [Dict.set]
  | cons p rest ih =>
    obtain ⟨a, b⟩ := p
    by_cases hk : a = k
    · simp [Dict.lookup, hk] at h
    · simp [Dict.lookup, hk] at h ⊢
      simp [Dict.set, hk, ih h]

theorem Dict.erase_append_absent {α β : Type} [DecidableEq α]
    {m : List (α × β)} {k : α} (h : Dict.lookup m k = none) (v : β) :
    Dict.erase (m ++ [(k, v)]) k = m := by
  induction m with
  | nil => simp [Dict.erase]
  | cons p rest ih =>
    obtain ⟨a, b⟩ := p
    by_cases hk : a = k
    · simp [Dict.lookup, hk] at h
    · simp [Dict.lookup, hk] at h ⊢
      simp [Dict.erase, hk, ih h]

theorem dd_getitem_present {m : TxMap} {k : String} {v : List DBClient}
    (h : Dict.lookup m k = some v) : dd_getitem m k = (v, m) := by
  simp [dd_getitem, h]

theorem dd_getitem_absent {m : TxMap} {k : String}
    (h : Dict.lookup m k = none) : dd_getitem m k = ([], m ++ [(k, [])]) := by
  simp [dd_getitem, h]

/-! ### Injectivity of the decimal rendering used inside `mkKey` -/

/-- The decimal digit characters of a natural number, most significant first;
closed form of what `Nat.toDigitsCore` computes. -/
def reprChars (n : Nat) : List Char :=
  if _h : n < 10 then [Nat.digitChar n]
  else reprChars (n / 10) ++ [Nat.digitChar (n % 10)]
decreasing_by exact Nat.div_lt_self (by omega) (by omega)

theorem reprChars_ne_nil (n : Nat) : reprChars n ≠ [] := by
  rw [reprChars]
  split <;> simp

theorem reprChars_decomp (n : Nat) :
    reprChars n =
      (if n < 10 then [] else reprChars (n / 10)) ++ [Nat.digitChar (n % 10)] := by
  rw [reprChars]
  split
  · simp_all [Nat.mod_eq_of_lt]
  · simp_all

theorem digitChar_inj :
    ∀ d, d < 10 → ∀ e, e < 10 → Nat.digitChar d = Nat.digitChar e → d = e := by
  decide

theorem reprChars_injective : ∀ m n : Nat, reprChars m = reprChars n → m = n := by
  intro m
  induction m using Nat.strong_induction_on with
  | _ m ih =>
    intro n h
    rw [reprChars_decomp m, reprChars_decomp n] at h
    have hlast := congrArg List.getLast? h
    rw [List.getLast?_concat, List.getLast?_concat] at hlast
    have hdig : m % 10 = n % 10 :=
      digitChar_inj _ (Nat.mod_lt _ (by omega)) _ (Nat.mod_lt _ (by omega))
        (Option.some.inj hlast)
    have hinit := congrArg List.dropLast h
    rw [List.dropLast_concat, List.dropLast_concat] at hinit
    by_cases hm : m < 10 <;> by_cases hn : n < 10
    · omega
    · simp [hm, hn] at hinit
      exact absurd hinit (reprChars_ne_nil _)
    · simp [hm, hn] at hinit
      exact absurd hinit (reprChars_ne_nil _)
    · simp [hm, hn] at hinit
      have hdiv : m / 10 = n / 10 :=
        ih (m / 10) (Nat.div_lt_self (by omega) (by omega)) _ hinit
      omega

theorem toDigitsCore_eq :
    ∀ (fuel n : Nat) (ds : List Char), n < fuel →
      Nat.toDigitsCore 10 fuel n ds = reprChars n ++ ds := by
  intro fuel
  induction fuel with
  | zero => omega
  | succ f ihf =>
    intro n ds h
    simp only [Nat.toDigitsCore]
    by_cases hz : n / 10 = 0
    · have hn : n < 10 := by omega
      rw [if_pos hz, reprChars]
      simp [hn, Nat.mod_eq_of_lt hn]
    · have hge : ¬ n < 10 := by
        intro hlt
        exact hz (Nat.div_eq_of_lt hlt)
      have hrec : n / 10 < f := by
        have h1 : n / 10 < n := Nat.div_lt_self (by omega) (by omega)
        omega
      rw [if_neg hz, ihf (n / 10) _ hrec]
      conv_rhs => rw [reprChars_decomp n]
      simp [hge, List.append_assoc]

theorem repr_data (n : Nat) : (Nat.repr n).data = reprChars n := by
  have h := toDigitsCore_eq (n + 1) n [] (Nat.lt_succ_self n)
  simp [Nat.repr, Nat.toDigits, List.asString, h]

theorem nat_repr_injective {m n : Nat} (h : Nat.repr m = Nat.repr n) : m = n := by
  apply reprChars_injective
  rw [← repr_data, ← repr_data, h]

/-! ### Behaviour of `get_connection`, `push_transaction`, `pop_transaction` -/

theorem get_connection_snd (connection_name : Option String) (st : PyState) :
    (get_connection connection_name st).2 = st := by
  obtain ⟨cs, m, lo, tk⟩ := st
  rw [get_connection]
  split
  · rfl
  · simp only []
    split
    · rfl
    · split
      · rename_i hmem
        have hv : ∃ v, Dict.lookup m
            (mkKey (resolved_name connection_name ⟨cs, m, lo, tk⟩) tk) = some v := by
          simpa [Dict.member, Option.isSome_iff_exists] using hmem
        obtain ⟨v, hv⟩ := hv
        simp [dd_getitem_present hv]
        split <;> rfl
      · rfl

theorem get_connection_skips_check {n : String} (st : PyState) (hn : n ≠ "") :
    get_connection (some n) st =
      (let name := n
       if !st.loopRunning then
         (match Dict.lookup st.connections name with
           | some c => .ok c
           | none => .error (.keyError name), st)
       else
         let key := mkKey name st.currentTask
         if Dict.member st.transactionMap key then
           let p := dd_getitem st.transactionMap key
           if !p.1.isEmpty then
             let q := dd_getitem p.2 key
             (match q.1.getLast? with
               | some h => .ok h
               | none => .error .indexError,
              { st with transactionMap := q.2 })
           else
             (match Dict.lookup st.connections name with
               | some c => .ok c
               | none => .error (.keyError name),
              { st with transactionMap := p.2 })
         else
           (match Dict.lookup st.connections name with
             | some c => .ok c
             | none => .error (.keyError name), st)) := by
  have hfalsy : nameFalsy (some n) = false := by
    simp [nameFalsy, hn]
  rw [get_connection]
  simp [hfalsy, resolved_name]

theorem get_connection_base {n : String} {c : DBClient} (st : PyState)
    (hn : n ≠ "") (hc : Dict.lookup st.connections n = some c)
    (hm : Dict.lookup st.transactionMap (mkKey n st.currentTask) = none) :
    get_connection (some n) st = (.ok c, st) := by
  rw [get_connection_skips_check st hn]
  have hmem : Dict.member st.transactionMap (mkKey n st.currentTask) = false := by
    simp [Dict.member, hm]
  cases hlo : st.loopRunning <;> simp [hmem, hc]

theorem get_connection_empty_stack {n : String} {c : DBClient} (st : PyState)
    (hn : n ≠ "") (hlo : st.loopRunning = true)
    (hc : Dict.lookup st.connections n = some c)
    (hm : Dict.lookup st.transactionMap (mkKey n st.currentTask) = some []) :
    get_connection (some n) st = (.ok c, st) := by
  obtain ⟨cs, m, lo, tk⟩ := st
  simp only [] at hlo
  subst hlo
  rw [get_connection_skips_check _ hn]
  have hmem : Dict.member m (mkKey n tk) = true := by
    simp [Dict.member]
    simp only [] at hm
    simp [hm]
  simp only [] at hm hc
  simp [hmem, dd_getitem_present hm, hc]

theorem get_connection_top {n : String} {v : List DBClient} {x : DBClient}
    (st : PyState) (hn : n ≠ "") (hlo : st.loopRunning = true)
    (hv : Dict.lookup st.transactionMap (mkKey n st.currentTask) = some v)
    (hx : v.getLast? = some x) :
    get_connection (some n) st = (.ok x, st) := by
  have hne : v ≠ [] := by
    intro hnil
    rw [hnil] at hx
    simp at hx
  obtain ⟨cs, m, lo, tk⟩ := st
  simp only [] at hlo
  subst hlo
  simp only [] at hv
  rw [get_connection_skips_check _ hn]
  have hmem : Dict.member m (mkKey n tk) = true := by
    simp [Dict.member, hv]
  simp [hmem, dd_getitem_present hv, hne, hx]

theorem push_transaction_present {name : String} {h : DBClient}
    {cs : List (String × DBClient)} {m : TxMap} {lo : Bool} {tk : Nat}
    {v : List DBClient} (hv : Dict.lookup m (mkKey name tk) = some v) :
    push_transaction name h ⟨cs, m, lo, tk⟩ =
      ⟨cs, Dict.set m (mkKey name tk) (v ++ [h]), lo, tk⟩ := by
  simp [push_transaction, dd_getitem_present hv]

theorem push_transaction_absent {name : String} {h : DBClient}
    {cs : List (String × DBClient)} {m : TxMap} {lo : Bool} {tk : Nat}
    (hv : Dict.lookup m (mkKey name tk) = none) :
    push_transaction name h ⟨cs, m, lo, tk⟩ =
      ⟨cs, m ++ [(mkKey name tk, [h])], lo, tk⟩ := by
  simp [push_transaction, dd_getitem_absent hv, Dict.set_append_absent hv]

theorem pop_transaction_eq {name : String}
    {cs : List (String × DBClient)} {m : TxMap} {lo : Bool} {tk : Nat}
    {v : List DBClient} (hv : Dict.lookup m (mkKey name tk) = some v)
    (hne : v ≠ []) :
    pop_transaction name ⟨cs, m, lo, tk⟩ =
      (.ok (), ⟨cs,
        if v.dropLast.isEmpty then Dict.erase m (mkKey name tk)
        else Dict.set m (mkKey name tk) v.dropLast, lo, tk⟩) := by
  have hset : Dict.lookup (Dict.set m (mkKey name tk) v.dropLast)
      (mkKey name tk) = some v.dropLast := Dict.lookup_set_self ..
  by_cases hd : v.dropLast.isEmpty <;>
    simp [pop_transaction, dd_getitem_present hv, hne, dd_getitem_present hset,
      hd, Dict.erase_set]

theorem pop_push (name : String) (h : DBClient) (st : PyState)
    (hmap : Dict.lookup st.transactionMap (mkKey name st.currentTask) ≠ some []) :
    pop_transaction name (push_transaction name h st) = (.ok (), st) := by
  obtain ⟨cs, m, lo, tk⟩ := st
  simp only [] at hmap
  cases hv : Dict.lookup m (mkKey name tk) with
  | none =>
    rw [push_transaction_absent hv]
    have hlook : Dict.lookup (m ++ [(mkKey name tk, [h])]) (mkKey name tk) =
        some [h] := Dict.lookup_append_absent hv _
    rw [pop_transaction_eq hlook (by simp)]
    simp [Dict.erase_append_absent hv]
  | some v =>
    have hvne : v ≠ [] := by
      intro hnil
      rw [hnil] at hv
      exact hmap hv
    rw [push_transaction_present hv]
    have hlook : Dict.lookup (Dict.set m (mkKey name tk) (v ++ [h]))
        (mkKey name tk) = some (v ++ [h]) := Dict.lookup_set_self ..
    rw [pop_transaction_eq hlook (by simp)]
    simp [List.dropLast_concat, hvne, Dict.set_set, Dict.set_lookup_self hv]

theorem push_many_present {name : String}
    {cs : List (String × DBClient)} {lo : Bool} {tk : Nat} :
    ∀ (hs : List DBClient) (m : TxMap) (v : List DBClient),
      Dict.lookup m (mkKey name tk) = some v →
      push_many name hs ⟨cs, m, lo, tk⟩ =
        ⟨cs, Dict.set m (mkKey name tk) (v ++ hs), lo, tk⟩ := by
  intro hs
  induction hs with
  | nil =>
    intro m v hv
    simp [push_many, Dict.set_lookup_self hv]
  | cons h t ih =>
    intro m v hv
    have hstep : push_many name (h :: t) ⟨cs, m, lo, tk⟩ =
        push_many name t (push_transaction name h ⟨cs, m, lo, tk⟩) := rfl
    rw [hstep, push_transaction_present hv,
      ih _ (v ++ [h]) (Dict.lookup_set_self ..), Dict.set_set]
    simp

theorem push_many_absent {name : String}
    {cs : List (String × DBClient)} {lo : Bool} {tk : Nat}
    {h : DBClient} {t : List DBClient} {m : TxMap}
    (hv : Dict.lookup m (mkKey name tk) = none) :
    push_many name (h :: t) ⟨cs, m, lo, tk⟩ =
      ⟨cs, m ++ [(mkKey name tk, h :: t)], lo, tk⟩ := by
  have hstep : push_many name (h :: t) ⟨cs, m, lo, tk⟩ =
      push_many name t (push_transaction name h ⟨cs, m, lo, tk⟩) := rfl
  rw [hstep, push_transaction_absent hv,
    push_many_present t _ [h] (Dict.lookup_append_absent hv _),
    Dict.set_append_absent hv]
  simp

theorem pop_many_stack {name : String}
    {cs : List (String × DBClient)} {lo : Bool} {tk : Nat} :
    ∀ (n : Nat) (v : List DBClient) (m : TxMap), v.length = n →
      Dict.lookup m (mkKey name tk) = some v → v ≠ [] →
      pop_many name n ⟨cs, m, lo, tk⟩ =
        (.ok (), ⟨cs, Dict.erase m (mkKey name tk), lo, tk⟩) := by
  intro n
  induction n with
  | zero =>
    intro v m hlen hv hne
    exact absurd (List.length_eq_zero.mp hlen) hne
  | succ k ih =>
    intro v m hlen hv hne
    have hpop := @pop_transaction_eq name cs m lo tk v hv hne
    by_cases hd : v.dropLast.isEmpty
    · have hk : k = 0 := by
        have := List.length_dropLast v
        have h0 : v.dropLast.length = 0 := by
          simpa [List.isEmpty_iff] using List.length_eq_zero.mpr
            (List.isEmpty_iff.mp hd)
        omega
      subst hk
      simp [hd] at hpop
      simp [pop_many, hpop]
    · have hk : v.dropLast.length = k := by
        have := List.length_dropLast v
        omega
      simp [hd] at hpop
      have hrec := ih v.dropLast (Dict.set m (mkKey name tk) v.dropLast) hk
        (Dict.lookup_set_self ..)
        (by simpa [List.isEmpty_iff] using hd)
      rw [Dict.erase_set] at hrec
      simp [pop_many, hpop, hrec]

theorem get_connection_falls_back {n : String} (st : PyState) (hn : n ≠ "")
    (hm : stackOf st (mkKey n st.currentTask) = []) :
    get_connection (some n) st =
      (match Dict.lookup st.connections n with
        | some c => .ok c
        | none => .error (.keyError n), st) := by
  obtain ⟨cs, m, lo, tk⟩ := st
  simp only [stackOf] at hm
  rw [get_connection_skips_check _ hn]
  cases hlo : lo
  · rfl
  · simp only []
    cases hv : Dict.lookup m (mkKey n tk) with
    | none =>
      have hmem : Dict.member m (mkKey n tk) = false := by
        simp [Dict.member, hv]
      simp [hmem]
    | some v =>
      have hvnil : v = [] := by
        rw [hv] at hm
        simpa using hm
      subst hvnil
      have hmem : Dict.member m (mkKey n tk) = true := by
        simp [Dict.member, hv]
      simp [hmem, dd_getitem_present hv]

/-! ### The claims -/

/-- Claim C1: with the event loop running and a non-empty connection name `n`
registered with base connection `c`, `get_connection` returns the most
recently pushed (last) handle of the stack stored under the computed
`(name, task)` key when such a stack exists and is non-empty, and the base
connection `c` otherwise; the state is untouched. -/
theorem resolve_returns_top_or_base (st : PyState) (n : String) (c : DBClient)
    (hn : n ≠ "") (hlo : st.loopRunning = true)
    (hc : Dict.lookup st.connections n = some c) :
    get_connection (some n) st =
      (.ok ((stackOf st (mkKey n st.currentTask)).getLast?.getD c), st) := by
  cases hv : Dict.lookup st.transactionMap (mkKey n st.currentTask) with
  | none =>
    rw [get_connection_base st hn hc hv]
    simp [stackOf, hv]
  | some v =>
    cases hx : v.getLast? with
    | none =>
      have hnil : v = [] := by simpa using hx
      subst hnil
      rw [get_connection_empty_stack st hn hlo hc hv]
      simp [stackOf, hv]
    | some x =>
      rw [get_connection_top st hn hlo hv hx]
      simp [stackOf, hv, hx]

/-- Claim C1 witness: in a state whose stack for key `a7` holds handles 98
then 99, resolution of `a` in task 7 yields handle 99. -/
theorem resolve_returns_top_or_base_witness :
    get_connection (some "a")
        ⟨[("a", ⟨1⟩), ("b", ⟨2⟩)], [("a7", [⟨98⟩, ⟨99⟩])], true, 7⟩ =
      (.ok ⟨99⟩, ⟨[("a", ⟨1⟩), ("b", ⟨2⟩)], [("a7", [⟨98⟩, ⟨99⟩])], true, 7⟩) :=
  resolve_returns_top_or_base _ "a" ⟨1⟩ (by decide) rfl rfl

/-- Claim C2 counterexample: the key is built by string concatenation
`connection_name + str(id(task))`, which is not jointly injective: the
distinct pairs `("a1", 23)` and `("a", 123)` produce the same key `"a123"`,
so the collision-freedom stated by the claim fails. -/
theorem key_collision_cex :
    (("a1", 23) : String × Nat) ≠ ("a", 123) ∧ mkKey "a1" 23 = mkKey "a" 123 :=
  ⟨by decide, by decide⟩

/-- Claim C2 amended: the computed key separates task identities under a
fixed connection name, and connection names under a fixed task identity;
joint injectivity over both components fails (see the counterexample). -/
theorem key_componentwise_injective :
    (∀ (n : String) (t1 t2 : Nat), mkKey n t1 = mkKey n t2 → t1 = t2) ∧
    (∀ (n1 n2 : String) (t : Nat), mkKey n1 t = mkKey n2 t → n1 = n2) := by
  constructor
  · intro n t1 t2 h
    have hd := congrArg String.data h
    rw [mkKey, mkKey, String.data_append, String.data_append] at hd
    exact nat_repr_injective (String.ext (List.append_cancel_left hd))
  · intro n1 n2 t h
    have hd := congrArg String.data h
    rw [mkKey, mkKey, String.data_append, String.data_append] at hd
    exact String.ext (List.append_cancel_right hd)

/-- Claim C2 amended, witness instantiation at concrete keys. -/
theorem key_componentwise_injective_witness :
    (23 : Nat) = 23 ∧ ("a" : String) = "a" :=
  ⟨key_componentwise_injective.1 "a" 23 23 rfl,
   key_componentwise_injective.2 "a" "a" 7 rfl⟩

/-- Claim C3 counterexample: with zero registered connections — where "more
than one connection is registered" is false — an omitted name still raises
`ParamsError`, so "exactly when more than one connection is registered"
fails. -/
theorem ambiguity_zero_connections_cex :
    (PyState.mk [] [] false 0).connections.length = 0 ∧
    (get_connection none (PyState.mk [] [] false 0)).1 =
      .error (.paramsError []) :=
  ⟨rfl, rfl⟩

/-- Claim C3 amended: with the name omitted, `get_connection` raises
`ParamsError` enumerating the registered names exactly when the number of
registered connections differs from one; with exactly one registered
connection it infers that name and behaves as if it had been supplied. -/
theorem infer_name_iff_single_connection (st : PyState) :
    (st.connections.length ≠ 1 →
      get_connection none st =
        (.error (.paramsError (Dict.keys st.connections)), st)) ∧
    (∀ n0 c0, st.connections = [(n0, c0)] →
      get_connection none st = get_connection (some n0) st) := by
  constructor
  · intro hlen
    have hb : (st.connections.length != 1) = true := by
      simpa using hlen
    rw [get_connection]
    simp [nameFalsy, hb]
  · intro n0 c0 hcs
    by_cases h0 : n0 = ""
    · subst h0
      rw [get_connection, get_connection]
      simp [nameFalsy, hcs, resolved_name, Dict.keys]
    · rw [get_connection, get_connection]
      simp [nameFalsy, hcs, resolved_name, Dict.keys, h0]

/-- Claim C3 amended, witness: two registered connections raise the listing
error; a single registered connection resolves like the explicit name. -/
theorem infer_name_iff_single_connection_witness :
    get_connection none ⟨[("a", ⟨1⟩), ("b", ⟨2⟩)], [], true, 7⟩ =
      (.error (.paramsError ["a", "b"]),
        ⟨[("a", ⟨1⟩), ("b", ⟨2⟩)], [], true, 7⟩) ∧
    get_connection none ⟨[("db", ⟨1⟩)], [], true, 7⟩ =
      get_connection (some "db") ⟨[("db", ⟨1⟩)], [], true, 7⟩ :=
  ⟨(infer_name_iff_single_connection _).1 (by decide),
   (infer_name_iff_single_connection _).2 "db" ⟨1⟩ rfl⟩

/-- Claim C4: starting from a state whose registry holds no entry for the
key, `n` pushes followed by `n` pops return the state exactly to its initial
value — in particular the key is absent afterwards and resolution yields the
base connection again. -/
theorem balanced_push_pop_restores (name : String) (c : DBClient)
    (cs : List (String × DBClient)) (m : TxMap) (lo : Bool) (tk : Nat)
    (hs : List DBClient)
    (habs : Dict.lookup m (mkKey name tk) = none)
    (hn : name ≠ "") (hc : Dict.lookup cs name = some c) :
    pop_many name hs.length (push_many name hs ⟨cs, m, lo, tk⟩) =
      (.ok (), ⟨cs, m, lo, tk⟩) ∧
    Dict.lookup (pop_many name hs.length
        (push_many name hs ⟨cs, m, lo, tk⟩)).2.transactionMap
      (mkKey name tk) = none ∧
    (get_connection (some name)
        (pop_many name hs.length (push_many name hs ⟨cs, m, lo, tk⟩)).2).1 =
      .ok c := by
  have hmain : pop_many name hs.length (push_many name hs ⟨cs, m, lo, tk⟩) =
      (.ok (), ⟨cs, m, lo, tk⟩) := by
    cases hs with
    | nil => simp [push_many, pop_many]
    | cons h t =>
      rw [push_many_absent habs,
        pop_many_stack (h :: t).length (h :: t) _ rfl
          (Dict.lookup_append_absent habs (h :: t)) (by simp),
        Dict.erase_append_absent habs]
  refine ⟨hmain, ?_, ?_⟩
  · rw [hmain]
    exact habs
  · rw [hmain, get_connection_base _ hn hc habs]

/-- Claim C4 witness: two pushes then two pops on a fresh key restore the
initial state and resolution returns the base connection. -/
theorem balanced_push_pop_restores_witness :
    pop_many "a" 2 (push_many "a" [⟨5⟩, ⟨6⟩] ⟨[("a", ⟨1⟩)], [], true, 7⟩) =
      (.ok (), ⟨[("a", ⟨1⟩)], [], true, 7⟩) ∧
    Dict.lookup (pop_many "a" 2
        (push_many "a" [⟨5⟩, ⟨6⟩] ⟨[("a", ⟨1⟩)], [], true, 7⟩)).2.transactionMap
      (mkKey "a" 7) = none ∧
    (get_connection (some "a")
        (pop_many "a" 2
          (push_many "a" [⟨5⟩, ⟨6⟩] ⟨[("a", ⟨1⟩)], [], true, 7⟩)).2).1 =
      .ok ⟨1⟩ :=
  balanced_push_pop_restores "a" ⟨1⟩ _ _ _ _ [⟨5⟩, ⟨6⟩] rfl (by decide) rfl

/-- Claim C5: the per-key stack is LIFO: after pushing `h1` then `h2` under
the same name and task, resolution returns `h2`; one successful pop later it
returns `h1` again. -/
theorem stack_is_lifo (st : PyState) (n : String) (h1 h2 : DBClient)
    (hn : n ≠ "") (hlo : st.loopRunning = true) :
    (get_connection (some n)
        (push_transaction n h2 (push_transaction n h1 st))).1 = .ok h2 ∧
    (pop_transaction n (push_transaction n h2 (push_transaction n h1 st))).1 =
      .ok () ∧
    (get_connection (some n)
        (pop_transaction n
          (push_transaction n h2 (push_transaction n h1 st))).2).1 = .ok h1 := by
  obtain ⟨cs, m, lo, tk⟩ := st
  simp only [] at hlo
  subst hlo
  obtain ⟨w, hw⟩ : ∃ w, push_transaction n h2 (push_transaction n h1
      ⟨cs, m, true, tk⟩) =
        ⟨cs, Dict.set (push_transaction n h1 ⟨cs, m, true, tk⟩).transactionMap
          (mkKey n tk) ((w ++ [h1]) ++ [h2]), true, tk⟩ ∧
      Dict.lookup (push_transaction n h1
        ⟨cs, m, true, tk⟩).transactionMap (mkKey n tk) = some (w ++ [h1]) := by
    cases hv : Dict.lookup m (mkKey n tk) with
    | none =>
      refine ⟨[], ?_, ?_⟩
      · rw [push_transaction_absent hv]
        exact push_transaction_present (Dict.lookup_append_absent hv [h1])
      · rw [push_transaction_absent hv]
        exact Dict.lookup_append_absent hv [h1]
    | some v =>
      refine ⟨v, ?_, ?_⟩
      · rw [push_transaction_present hv]
        exact push_transaction_present (Dict.lookup_set_self ..)
      · rw [push_transaction_present hv]
        exact Dict.lookup_set_self ..
  obtain ⟨hpush2, hlook1⟩ := hw
  have hlook2 : Dict.lookup (Dict.set (push_transaction n h1
      ⟨cs, m, true, tk⟩).transactionMap (mkKey n tk) ((w ++ [h1]) ++ [h2]))
      (mkKey n tk) = some ((w ++ [h1]) ++ [h2]) := Dict.lookup_set_self ..
  refine ⟨?_, ?_, ?_⟩
  · rw [hpush2, get_connection_top _ hn rfl hlook2 (List.getLast?_concat _)]
  · rw [hpush2, pop_transaction_eq hlook2 (by simp)]
  · rw [hpush2, pop_transaction_eq hlook2 (by simp)]
    simp only [List.dropLast_concat]
    have hne : ((w ++ [h1]).isEmpty) = false := by simp
    rw [if_neg (by simp [hne])]
    rw [get_connection_top _ hn rfl (Dict.lookup_set_self ..)
      (List.getLast?_concat _)]

/-- Claim C5 witness: pushing handles 5 then 6 resolves to 6. -/
theorem stack_is_lifo_witness :
    (get_connection (some "a")
        (push_transaction "a" ⟨6⟩
          (push_transaction "a" ⟨5⟩ ⟨[("a", ⟨1⟩)], [], true, 7⟩))).1 =
      .ok ⟨6⟩ :=
  (stack_is_lifo _ "a" ⟨5⟩ ⟨6⟩ (by decide) rfl).1

/-- Claim C6: whenever scope entry resolves a connection, `atomic` returns
exactly the wrapped unit's verdict — the result on success, the identical
failure on failure — and the push performed on entry has been popped again,
returning the interpreter state to its initial value. -/
theorem atomic_propagates_result {A : Type} (cn : Option String)
    (b : DBClient → DBClient) (fn : PyState → Except PyError A)
    (st : PyState) (conn : DBClient)
    (h1 : (get_connection cn st).1 = .ok conn)
    (h2 : Dict.lookup st.transactionMap
      (mkKey (resolved_name cn st) st.currentTask) ≠ some []) :
    atomic cn b fn st =
      (fn (push_transaction (resolved_name cn st) (b conn) st), st) := by
  have hgc : get_connection cn st = (.ok conn, st) :=
    Prod.ext h1 (get_connection_snd cn st)
  rw [atomic, transaction_scope, hgc]
  simp only []
  rw [pop_push _ _ _ h2]

/-- Claim C6 witness: a unit of work failing with `userError 5` propagates
that exact failure through `atomic`, with the state restored. -/
theorem atomic_propagates_result_witness :
    atomic none (fun c => ⟨c.id + 100⟩)
        (fun _ => (.error (.userError 5) : Except PyError Nat))
        ⟨[("db", ⟨1⟩)], [], true, 7⟩ =
      (.error (.userError 5), ⟨[("db", ⟨1⟩)], [], true, 7⟩) :=
  atomic_propagates_result none _ _ _ ⟨1⟩ rfl (by decide)

/-- Claim C7: with the event loop not running, resolution (for a name that
passes the omission check and is registered) returns the base connection,
whatever the transaction-stack registry holds. -/
theorem no_loop_returns_base (st : PyState) (cn : Option String) (c : DBClient)
    (hlo : st.loopRunning = false)
    (hres : nameFalsy cn = false ∨ st.connections.length = 1)
    (hc : Dict.lookup st.connections (resolved_name cn st) = some c) :
    get_connection cn st = (.ok c, st) := by
  have hcond : (nameFalsy cn && (st.connections.length != 1)) = false := by
    rcases hres with h | h <;> simp [h]
  rw [get_connection]
  simp [hcond, hlo, hc]

/-- Claim C7 witness: loop stopped, base connection returned even though the
registry holds a non-empty stack for the very key of this name and task. -/
theorem no_loop_returns_base_witness :
    get_connection (some "a")
        ⟨[("a", ⟨1⟩), ("b", ⟨2⟩)], [("a7", [⟨99⟩])], false, 7⟩ =
      (.ok ⟨1⟩, ⟨[("a", ⟨1⟩), ("b", ⟨2⟩)], [("a7", [⟨99⟩])], false, 7⟩) :=
  no_loop_returns_base _ (some "a") ⟨1⟩ rfl (Or.inl rfl) rfl

/-- Claim C8: `get_connection` never mutates anything: on every path the
returned post-state — in particular the transaction-stack registry — is the
input state; a lookup of an absent key creates no entry. -/
theorem resolve_never_mutates_registry (cn : Option String) (st : PyState) :
    ((get_connection cn st).2).transactionMap = st.transactionMap ∧
    (get_connection cn st).2 = st :=
  ⟨by rw [get_connection_snd], get_connection_snd cn st⟩

/-- Claim C9: popping a key that is absent from the registry raises
`IndexError` (stack underflow), and the failed call leaves behind a newly
created empty stack under that key, because the defaultdict inserts the
default before `pop()` fails and the delete-on-empty cleanup is skipped. -/
theorem pop_absent_raises_and_leaks (name : String)
    (cs : List (String × DBClient)) (m : TxMap) (lo : Bool) (tk : Nat)
    (habs : Dict.lookup m (mkKey name tk) = none) :
    pop_transaction name ⟨cs, m, lo, tk⟩ =
      (.error .indexError, ⟨cs, m ++ [(mkKey name tk, [])], lo, tk⟩) ∧
    Dict.lookup (m ++ [(mkKey name tk, [])]) (mkKey name tk) = some [] := by
  constructor
  · simp [pop_transaction, dd_getitem_absent habs]
  · exact Dict.lookup_append_absent habs []

/-- Claim C9 witness: popping the untouched key `a7` fails with `IndexError`
and leaks an empty entry. -/
theorem pop_absent_raises_and_leaks_witness :
    pop_transaction "a" ⟨[("a", ⟨1⟩)], [], true, 7⟩ =
      (.error .indexError, ⟨[("a", ⟨1⟩)], [(mkKey "a" 7, [])], true, 7⟩) ∧
    Dict.lookup (([] : TxMap) ++ [(mkKey "a" 7, [])]) (mkKey "a" 7) =
      some ([] : List DBClient) :=
  pop_absent_raises_and_leaks "a" _ _ _ _ rfl

/-- Claim C10 counterexample: the empty string is an explicitly supplied,
unregistered connection name, yet with two registered connections resolution
raises the ambiguity `ParamsError` — not a key-lookup error — because Python
truthiness conflates `""` with an omitted name. -/
theorem empty_name_ambiguity_cex :
    Dict.lookup ([("a", ⟨1⟩), ("b", ⟨2⟩)] : List (String × DBClient)) "" =
      none ∧
    (get_connection (some "")
        ⟨[("a", ⟨1⟩), ("b", ⟨2⟩)], [], true, 7⟩).1 =
      .error (.paramsError ["a", "b"]) :=
  ⟨rfl, rfl⟩

/-- Claim C10 amended: for every explicitly supplied non-empty name, no
ambiguity check happens — `ParamsError` is impossible whatever is registered
— and when the name is unregistered and no stacked handle exists for its key,
resolution fails with `KeyError` naming it, rather than falling back. -/
theorem supplied_name_no_ambiguity (st : PyState) (n : String) (hn : n ≠ "") :
    (∀ l, (get_connection (some n) st).1 ≠ .error (.paramsError l)) ∧
    (Dict.lookup st.connections n = none →
      stackOf st (mkKey n st.currentTask) = [] →
      get_connection (some n) st = (.error (.keyError n), st)) := by
  constructor
  · intro l
    rw [get_connection_skips_check st hn]
    simp only []
    split
    · split <;> simp
    · split
      · split
        · split <;> simp
        · split <;> simp
      · split <;> simp
  · intro hcn hstack
    rw [get_connection_falls_back st hn hstack, hcn]

/-- Claim C10 amended, witness: an unregistered non-empty name gives
`KeyError` and can never give `ParamsError`. -/
theorem supplied_name_no_ambiguity_witness :
    (get_connection (some "zzz") ⟨[("a", ⟨1⟩)], [], true, 7⟩).1 ≠
      .error (.paramsError ["a"]) ∧
    get_connection (some "zzz") ⟨[("a", ⟨1⟩)], [], true, 7⟩ =
      (.error (.keyError "zzz"), ⟨[("a", ⟨1⟩)], [], true, 7⟩) :=
  ⟨(supplied_name_no_ambiguity _ "zzz" (by decide)).1 ["a"],
   (supplied_name_no_ambiguity _ "zzz" (by decide)).2 rfl rfl⟩

end Tortoise
